import Mathlib

/-!
Path derivation and control flow of `main` in gaussianBlur.cpp.

A shallow embedding of `src/gaussianBlur.cpp`.  A `std::string` is a list of
characters, `std::string::npos` is `none`, and every call into a library that
is not part of the repository (CUDA runtime, NPP, the NPP utility classes, the
command-line helpers) is a field of `World`, read once by `main`.
-/

namespace GaussianBlur

/-- A `std::string`: a finite sequence of characters. -/
abbrev Str := List Char

/-- The method `std::string::rfind(c)`: index of the last occurrence of `c`, `none` for
`npos`. -/
def rfind : Str → Char → Option Nat
  | [], _ => none
  | x :: xs, c =>
    match rfind xs c with
    | some i => some (i + 1)
    | none => if x = c then some 0 else none

/-- The method `std::string::substr(0, n)`. -/
def substr0 (s : Str) (n : Nat) : Str := s.take n

/-- Lines 125-131 of `main`: the default name of the result file, computed
from the input file name. -/
def defaultResultFilename (sFilename : Str) : Str :=
  let sResultFilename := sFilename
  let dot := rfind sResultFilename '.'
  let sResultFilename :=
    match dot with
    | some d => substr0 sResultFilename d
    | none => sResultFilename
  sResultFilename ++ "_gaussianBlur.pgm".toList

/-- Lines 196-202 of `main`: the name of the PNG file, computed from the name
of the result file. -/
def sResultPNGFilename (sResultFilename : Str) : Str :=
  let sResultPNGFilename := sResultFilename
  let dot := rfind sResultPNGFilename '.'
  let sResultPNGFilename :=
    match dot with
    | some d => substr0 sResultPNGFilename d
    | none => sResultPNGFilename
  sResultPNGFilename ++ "_gaussianBlur.png".toList

/-- The `exit` status `EXIT_SUCCESS` of `<cstdlib>`. -/
def EXIT_SUCCESS : Int := 0

/-- The `exit` status `EXIT_FAILURE` of `<cstdlib>`. -/
def EXIT_FAILURE : Int := 1

/-- The status `NPP_SUCCESS` of `<npp.h>`. -/
def NPP_SUCCESS : Int := 0

/-- The conversion `static_cast<int>` of an `unsigned int`: the value modulo `2^32`, read as
a 32-bit two's complement number. -/
def toInt32 (u : Nat) : Int :=
  if u % 2 ^ 32 < 2 ^ 31 then ((u % 2 ^ 32 : Nat) : Int)
  else ((u % 2 ^ 32 : Nat) : Int) - 2 ^ 32

/-- Conversion of an `int` to an `unsigned int` parameter: the value modulo
`2^32`. -/
def toUInt32 (i : Int) : Nat := (i % 2 ^ 32).toNat

/-- An image in host memory, `npp::ImageCPU_8u_C1`: its width and height, both
`unsigned int`.  The sample buffer behind its data pointer is not
represented. -/
structure ImageCPU where
  width : Nat
  height : Nat
  deriving DecidableEq, Repr

/-- An image in device memory, `npp::ImageNPP_8u_C1`: its width and height,
both `unsigned int`. -/
structure ImageNPP where
  width : Nat
  height : Nat
  deriving DecidableEq, Repr

/-- The `NppiSize` of `<npp.h>`: two `int` fields. -/
structure NppiSize where
  width : Int
  height : Int
  deriving DecidableEq, Repr

/-- The `NppiPoint` of `<npp.h>`: two `int` fields. -/
structure NppiPoint where
  x : Int
  y : Int
  deriving DecidableEq, Repr

/-- The mask sizes of `NppiMaskSize` that the program names. -/
inductive NppiMaskSize where
  | NPP_MASK_SIZE_5_X_5
  deriving DecidableEq, Repr

/-- The border types of `NppiBorderType` that the program names. -/
inductive NppiBorderType where
  | NPP_BORDER_REPLICATE
  deriving DecidableEq, Repr

/-- The arguments of the one call of `nppiFilterGaussBorder_8u_C1R` (lines
157-159); the device pointers and pitches are represented by the images
themselves. -/
structure FilterCall where
  src : ImageNPP
  oSrcSize : NppiSize
  oSrcOffset : NppiPoint
  dst : ImageNPP
  oSizeROI : NppiSize
  eMaskSize : NppiMaskSize
  eBorderType : NppiBorderType
  deriving DecidableEq, Repr

/-- What a run of `main` does that is visible outside of it, in program
order. -/
inductive Event where
  | printNPPinfo (bVal : Bool)
  | loadImage (sFilename : Str)
  | oDeviceSrc (width height : Nat)
  | oDeviceDst (width height : Nat)
  | filter (call : FilterCall) (status : Int)
  | oHostDst (width height : Nat)
  | saveImage (sResultFilename : Str) (oHostDst : ImageCPU)
  | saveAsPNG (sResultPNGFilename : Str) (oHostDst : ImageCPU)
  deriving DecidableEq, Repr

/-- Everything `main` obtains from outside the repository during one run.
`none` for a call that can throw means that it threw. -/
structure World where
  /-- The call of `findCudaDevice` (helper_cuda.h): `some c` when the helper itself ends
  the process with status `c`, `none` when it returns. -/
  findCudaDevice : Option Int
  /-- The value of `checkCudaCapabilities(1, 0)`, which `printNPPinfo`
  returns. -/
  checkCudaCapabilities : Bool
  /-- The `input` flag: `none` when `checkCmdLineFlag` is false, else the
  string `getCmdLineArgumentString` yields. -/
  input : Option Str
  /-- The value of `sdkFindFilePath("Lena.pgm", argv[0])`, `none` for a null
  pointer. -/
  sdkFindFilePath : Option Str
  /-- Whether `std::ifstream(path).good()` holds. -/
  infileGood : Str → Bool
  /-- The `output` flag, as for `input`. -/
  output : Option Str
  /-- The image `npp::loadImage` decodes. -/
  loadImage : Str → Option ImageCPU
  /-- Whether device memory for the source image, of the given sides, can be
  had. -/
  deviceAllocSrc : Nat → Nat → Bool
  /-- Whether device memory for the destination image, of the given sides,
  can be had once the source image is in place. -/
  deviceAllocDst : Nat → Nat → Bool
  /-- The status `nppiFilterGaussBorder_8u_C1R` returns. -/
  nppiFilterGaussBorder : FilterCall → Int
  /-- Whether allocating the host destination and copying back succeed. -/
  copyToHost : Nat → Nat → Bool
  /-- Whether `saveImage` returns normally. -/
  saveImage : Str → ImageCPU → Bool

/-- Modelled from the spec: the stager allocates device memory matching the
sides of the host image, and an allocation failure is fatal (4.3).  Missing
from the sources are the constructors of `npp::ImageNPP_8u_C1` and the
allocator behind them, `nppiMalloc_8u_C1`, whose two side parameters are
`int`: a side outside the range of `int` cannot be allocated, and otherwise
the memory oracle decides. -/
def deviceImage (memory : Nat → Nat → Bool) (width height : Nat) : Bool :=
  decide (width < 2 ^ 31) && decide (height < 2 ^ 31) && memory width height

/-- The function `printNPPinfo` (lines 61-80): after printing the versions it
returns the capability check. -/
def printNPPinfo (w : World) : Bool :=
  let bVal := w.checkCudaCapabilities
  bVal

/-- Lines 98-114 of `main`: the input file name. -/
def sFilename (w : World) : Str :=
  let filePath : Option Str :=
    match w.input with
    | some p => some p
    | none => w.sdkFindFilePath
  match filePath with
  | some p => p
  | none => "Lena.pgm".toList

/-- Lines 125-138 of `main`: the name the result is saved under. -/
def sResultFilename (w : World) : Str :=
  let sResultFilename := defaultResultFilename (sFilename w)
  match w.output with
  | some outputFilePath => outputFilePath
  | none => sResultFilename

/-- How control leaves the `try`/`catch` statement of `main`. -/
inductive Flow where
  | exit (status : Int)
  | fallThrough (sResultFilename : Str) (oHostDst : ImageCPU)
  deriving DecidableEq, Repr

/-- The outcome of a run: the exit status and the events, in order. -/
structure Run where
  status : Int
  trace : List Event
  deriving DecidableEq, Repr

/-- Lines 86-190 of `main`: the `try` block with its two handlers, each of
which calls `exit(EXIT_FAILURE)`. -/
def tryCatch (w : World) : Flow × List Event :=
  match w.findCudaDevice with
  | some c => (.exit c, [])
  | none =>
  let t0 := [Event.printNPPinfo (printNPPinfo w)]
  if !printNPPinfo w then (.exit EXIT_SUCCESS, t0) else
  let sFilename := sFilename w
  if !w.infileGood sFilename then (.exit EXIT_FAILURE, t0) else
  let sResultFilename := sResultFilename w
  let t1 := t0 ++ [.loadImage sFilename]
  match w.loadImage sFilename with
  | none => (.exit EXIT_FAILURE, t1)
  | some oHostSrc =>
  if !deviceImage w.deviceAllocSrc oHostSrc.width oHostSrc.height then
    (.exit EXIT_FAILURE, t1) else
  let oDeviceSrc : ImageNPP := ⟨oHostSrc.width, oHostSrc.height⟩
  let t2 := t1 ++ [.oDeviceSrc oDeviceSrc.width oDeviceSrc.height]
  let oSrcSize : NppiSize := ⟨toInt32 oDeviceSrc.width, toInt32 oDeviceSrc.height⟩
  let oSrcOffset : NppiPoint := ⟨0, 0⟩
  let oMaskSize := NppiMaskSize.NPP_MASK_SIZE_5_X_5
  if !deviceImage w.deviceAllocDst (toUInt32 oSrcSize.width) (toUInt32 oSrcSize.height) then
    (.exit EXIT_FAILURE, t2) else
  let oDeviceDst : ImageNPP := ⟨toUInt32 oSrcSize.width, toUInt32 oSrcSize.height⟩
  let t3 := t2 ++ [.oDeviceDst oDeviceDst.width oDeviceDst.height]
  let call : FilterCall :=
    ⟨oDeviceSrc, oSrcSize, oSrcOffset, oDeviceDst, oSrcSize, oMaskSize,
      NppiBorderType.NPP_BORDER_REPLICATE⟩
  let status := w.nppiFilterGaussBorder call
  let t4 := t3 ++ [.filter call status]
  if status ≠ NPP_SUCCESS then (.exit EXIT_FAILURE, t4) else
  if !w.copyToHost oDeviceDst.width oDeviceDst.height then (.exit EXIT_FAILURE, t4) else
  let oHostDst : ImageCPU := ⟨oDeviceDst.width, oDeviceDst.height⟩
  let t5 := t4 ++ [.oHostDst oHostDst.width oHostDst.height]
  let t6 := t5 ++ [.saveImage sResultFilename oHostDst]
  if !w.saveImage sResultFilename oHostDst then (.exit EXIT_FAILURE, t6) else
  (.exit EXIT_SUCCESS, t6)

/-- Lines 192-208 of `main`: the statements after the `try`/`catch`
statement. -/
def afterCatch (sResultFilename : Str) (oHostDst : ImageCPU) : Run :=
  let t1 := [Event.saveImage sResultFilename oHostDst]
  let png := sResultPNGFilename sResultFilename
  ⟨0, t1 ++ [.saveAsPNG png oHostDst]⟩

/-- The function `main` (lines 82-209). -/
def main (w : World) : Run :=
  match tryCatch w with
  | (.exit status, t) => ⟨status, t⟩
  | (.fallThrough sResultFilename oHostDst, t) =>
    let r := afterCatch sResultFilename oHostDst
    ⟨r.status, t ++ r.trace⟩

/-- The run writes some PGM file. -/
def writesAnyPGM (r : Run) : Bool := r.trace.any fun e =>
  match e with
  | .saveImage _ _ => true
  | _ => false

/-- The run writes some PNG file. -/
def writesAnyPNG (r : Run) : Bool := r.trace.any fun e =>
  match e with
  | .saveAsPNG _ _ => true
  | _ => false

/-- The run calls `npp::loadImage`. -/
def loadsImage (r : Run) : Bool := r.trace.any fun e =>
  match e with
  | .loadImage _ => true
  | _ => false

/-- The run calls the blur primitive. -/
def invokesFilter (r : Run) : Bool := r.trace.any fun e =>
  match e with
  | .filter _ _ => true
  | _ => false

/-- A world in which every step succeeds, for the given flags and decoded
image. -/
def okWorld (input output : Option Str) (img : ImageCPU) : World where
  findCudaDevice := none
  checkCudaCapabilities := true
  input := input
  sdkFindFilePath := none
  infileGood := fun _ => true
  output := output
  loadImage := fun _ => some img
  deviceAllocSrc := fun _ _ => true
  deviceAllocDst := fun _ _ => true
  nppiFilterGaussBorder := fun _ => NPP_SUCCESS
  copyToHost := fun _ _ => true
  saveImage := fun _ _ => true

/-- The paths `saveImage` was called with, in order. -/
def savedPaths (r : Run) : List Str := r.trace.filterMap fun e =>
  match e with
  | .saveImage p _ => some p
  | _ => none

/-- The argument lists the blur primitive was called with, in order. -/
def filterCalls (r : Run) : List FilterCall := r.trace.filterMap fun e =>
  match e with
  | .filter call _ => some call
  | _ => none

/-- The world of a run with `--input=foo.pgm` in which every step succeeds. -/
def fooWorld : World := okWorld (some "foo.pgm".toList) none ⟨4, 3⟩

/-- As `fooWorld`, but the input file cannot be opened. -/
def missingWorld : World :=
  { okWorld (some "missing.pgm".toList) none ⟨4, 3⟩ with infileGood := fun _ => false }

/-- As `fooWorld`, but the blur primitive returns the status -6. -/
def filterFailWorld : World :=
  { okWorld (some "foo.pgm".toList) none ⟨4, 3⟩ with nppiFilterGaussBorder := fun _ => -6 }

/-- A world without a capable device, and whose input file does not exist. -/
def noDeviceWorld : World :=
  { okWorld (some "missing.pgm".toList) (some "out.pgm".toList) ⟨4, 3⟩ with
    checkCudaCapabilities := false
    infileGood := fun _ => false }

/-- A run with `--input=foo.png` in which every step succeeds. -/
def pngInputWorld : World := okWorld (some "foo.png".toList) none ⟨4, 3⟩

/-- A run with `--input=lena.tiff` in which every step succeeds. -/
def tiffInputWorld : World := okWorld (some "lena.tiff".toList) none ⟨4, 3⟩

/-- A run with `--input=data.v2/lena` in which every step succeeds. -/
def dottedDirWorld : World := okWorld (some "data.v2/lena".toList) none ⟨4, 3⟩

/-- A run with `--input=data.v2/lena.pgm` in which every step succeeds. -/
def dottedDirPgmWorld : World := okWorld (some "data.v2/lena.pgm".toList) none ⟨4, 3⟩

/-- A run with `--input=foo.pgm --output=out/bar.pgm` in which every step
succeeds. -/
def outputFlagWorld : World :=
  okWorld (some "foo.pgm".toList) (some "out/bar.pgm".toList) ⟨4, 3⟩

/-- A run on an image 640 samples wide and 480 high, every step succeeding. -/
def vgaWorld : World := okWorld (some "vga.pgm".toList) none ⟨640, 480⟩

/-! ## The claim about the file name's extension, in the words of the spec -/

/-- The directory part of a path: everything up to and including the last
`/`. -/
def dirPart (path : Str) : Str :=
  match rfind path '/' with
  | some i => path.take (i + 1)
  | none => []

/-- The final component of a path: what follows the last `/`. -/
def fileName (path : Str) : Str :=
  match rfind path '/' with
  | some i => path.drop (i + 1)
  | none => path

/-- A file name without its extension; unchanged when it has none. -/
def stripExtension (name : Str) : Str :=
  match rfind name '.' with
  | some d => name.take d
  | none => name

/-- The spec's reading of the derivation: the directory part unchanged and
only the extension of the final component removed. -/
def stripFileNameExtension (path : Str) : Str :=
  dirPart path ++ stripExtension (fileName path)

/-! ## Facts about `rfind` -/

theorem rfind_eq_none_iff (s : Str) (c : Char) : rfind s c = none ↔ c ∉ s := by
  induction s with
  | nil => simp [rfind]
  | cons x xs ih =>
    simp only [rfind, List.mem_cons, not_or]
    cases h : rfind xs c with
    | some i =>
      have : ¬ (c ∉ xs) := fun hc => by simp [ih.mpr hc] at h
      simp [this]
    | none =>
      have hc : c ∉ xs := ih.mp h
      by_cases hx : x = c
      · simp [hx]
      · simp [hx, hc, Ne.symm hx]

theorem rfind_cons (x : Char) (xs : Str) (c : Char) :
    rfind (x :: xs) c =
      match rfind xs c with
      | some i => some (i + 1)
      | none => if x = c then some 0 else none := rfl

theorem rfind_append_some (a b : Str) (c : Char) (d : Nat) (h : rfind b c = some d) :
    rfind (a ++ b) c = some (a.length + d) := by
  induction a with
  | nil => simpa using h
  | cons x xs ih =>
    rw [List.cons_append, rfind_cons, ih, List.length_cons]
    simp only [Option.some.injEq]
    omega

theorem rfind_append_dot (a b : Str) (c : Char) (hb : c ∉ b) :
    rfind (a ++ c :: b) c = some a.length := by
  have h0 : rfind (c :: b) c = some 0 := by
    rw [rfind_cons, (rfind_eq_none_iff b c).mpr hb]
    simp
  simpa using rfind_append_some a (c :: b) c 0 h0

theorem defaultResultFilename_append_dot (a b : Str) (hb : '.' ∉ b) :
    defaultResultFilename (a ++ '.' :: b) = a ++ "_gaussianBlur.pgm".toList := by
  simp [defaultResultFilename, rfind_append_dot a b '.' hb, substr0]

theorem sResultPNGFilename_append_dot (a b : Str) (hb : '.' ∉ b) :
    sResultPNGFilename (a ++ '.' :: b) = a ++ "_gaussianBlur.png".toList := by
  simp [sResultPNGFilename, rfind_append_dot a b '.' hb, substr0]

/-! ## Facts about the control flow of `main` -/

theorem tryCatch_exits (w : World) : ∃ c, (tryCatch w).1 = Flow.exit c := by
  simp only [tryCatch]
  repeat' split
  all_goals exact ⟨_, rfl⟩

theorem main_eq_tryCatch (w : World) (c : Int) (h : (tryCatch w).1 = Flow.exit c) :
    main w = ⟨c, (tryCatch w).2⟩ := by
  unfold main
  split
  · next st t heq => rw [heq] at h; cases h; simp [heq]
  · next n o t heq => rw [heq] at h; cases h

theorem main_no_png (w : World) : writesAnyPNG (main w) = false := by
  obtain ⟨c, hc⟩ := tryCatch_exits w
  rw [main_eq_tryCatch w c hc]
  simp only [tryCatch, writesAnyPNG]
  repeat' split
  all_goals simp

theorem saveImage_mem_main (w : World) (p : Str) (img : ImageCPU)
    (h : Event.saveImage p img ∈ (main w).trace) : p = sResultFilename w := by
  obtain ⟨c, hc⟩ := tryCatch_exits w
  rw [main_eq_tryCatch w c hc] at h
  simp only [tryCatch] at h
  repeat' split at h
  all_goals simp at h
  all_goals exact h.1

theorem toUInt32_natCast (u : Nat) (hu : u < 2 ^ 31) : toUInt32 (u : Int) = u := by
  unfold toUInt32
  omega

theorem deviceImage_bounds (memory : Nat → Nat → Bool) (width height : Nat)
    (h : deviceImage memory width height = true) : width < 2 ^ 31 ∧ height < 2 ^ 31 := by
  simp only [deviceImage, Bool.and_eq_true, decide_eq_true_eq] at h
  exact ⟨h.1.1, h.1.2⟩

theorem toInt32_small (u : Nat) (hu : u < 2 ^ 31) : toInt32 u = (u : Int) := by
  unfold toInt32
  split <;> omega


theorem mem_savedPaths_main (w : World) (q : Str) (h : q ∈ savedPaths (main w)) :
    q = sResultFilename w := by
  simp only [savedPaths, List.mem_filterMap] at h
  obtain ⟨e, he, hq⟩ := h
  cases e <;> simp at hq
  subst hq
  exact saveImage_mem_main w _ _ he

theorem dirPart_append_fileName (path : Str) : dirPart path ++ fileName path = path := by
  unfold dirPart fileName
  cases rfind path '/' <;> simp

theorem defaultResultFilename_append_some (a b : Str) (d : Nat)
    (h : rfind b '.' = some d) :
    defaultResultFilename (a ++ b) = a ++ b.take d ++ "_gaussianBlur.pgm".toList := by
  simp only [defaultResultFilename, rfind_append_some a b '.' d h, substr0, List.take_append]

theorem defaultResultFilename_eq_strip (path : Str)
    (h : '.' ∈ fileName path ∨ '.' ∉ path) :
    defaultResultFilename path
      = stripFileNameExtension path ++ "_gaussianBlur.pgm".toList := by
  have hsplit := dirPart_append_fileName path
  unfold stripFileNameExtension stripExtension
  cases hr : rfind (fileName path) '.' with
  | some d =>
    have h1 : defaultResultFilename path
        = defaultResultFilename (dirPart path ++ fileName path) := by rw [hsplit]
    rw [h1, defaultResultFilename_append_some _ _ d hr]
  | none =>
    have hno : '.' ∉ fileName path := (rfind_eq_none_iff _ _).mp hr
    have hpath : '.' ∉ path := by
      rcases h with h | h
      · exact absurd h hno
      · exact h
    have hp : rfind path '.' = none := (rfind_eq_none_iff _ _).mpr hpath
    simp only [defaultResultFilename, hp, hsplit]

/-! ## The claims -/

/-- Claim C1: when the input path is a stem followed by `.pgm` and no output
flag is given, the name the result is saved under is the stem followed by
`_gaussianBlur.pgm`, and `saveImage` is called with no other name.  (The stem
may be any string.) -/
theorem default_pgm_path (w : World) (s : Str)
    (hin : sFilename w = s ++ ".pgm".toList) (hout : w.output = none) :
    sResultFilename w = s ++ "_gaussianBlur.pgm".toList ∧
    ∀ q ∈ savedPaths (main w), q = s ++ "_gaussianBlur.pgm".toList := by
  have h : sResultFilename w = s ++ "_gaussianBlur.pgm".toList := by
    simp only [sResultFilename, hout, hin]
    exact defaultResultFilename_append_dot s "pgm".toList (by decide)
  exact ⟨h, fun q hq => (mem_savedPaths_main w q hq).trans h⟩

/-- The run on `foo.pgm` saves under `foo_gaussianBlur.pgm`. -/
theorem default_pgm_path_witness :
    savedPaths (main fooWorld) = ["foo_gaussianBlur.pgm".toList] ∧
    (sResultFilename fooWorld = "foo".toList ++ "_gaussianBlur.pgm".toList ∧
      ∀ q ∈ savedPaths (main fooWorld), q = "foo".toList ++ "_gaussianBlur.pgm".toList) :=
  ⟨by decide, default_pgm_path fooWorld "foo".toList (by decide) (by decide)⟩

/-- Claim C2: the statements that compute the PNG name (lines 196-202) strip
the extension of the result name and append `_gaussianBlur.png` once more: for
the input `s.pgm` they give `s_gaussianBlur_gaussianBlur.png`, which for
`foo.pgm` is not `foo_gaussianBlur.png`. -/
theorem png_path_repeats_suffix :
    (∀ s : Str, sResultPNGFilename (defaultResultFilename (s ++ ".pgm".toList))
        = s ++ "_gaussianBlur_gaussianBlur.png".toList) ∧
    sResultPNGFilename (sResultFilename fooWorld)
      = "foo_gaussianBlur_gaussianBlur.png".toList ∧
    sResultPNGFilename (sResultFilename fooWorld) ≠ "foo_gaussianBlur.png".toList := by
  refine ⟨fun s => ?_, by decide, by decide⟩
  have h1 : defaultResultFilename (s ++ ".pgm".toList) = s ++ "_gaussianBlur.pgm".toList :=
    defaultResultFilename_append_dot s "pgm".toList (by decide)
  have h2 : s ++ "_gaussianBlur.pgm".toList
      = (s ++ "_gaussianBlur".toList) ++ '.' :: "pgm".toList := by
    rw [List.append_assoc]; rfl
  rw [h1, h2, sResultPNGFilename_append_dot _ _ (by decide), List.append_assoc]
  rfl

/-- Claim C3: no run of `main` calls `saveAsPNG`, and the run on `foo.pgm` in
which every step succeeds exits with status 0 after calling the filter and
`saveImage`: it writes the PGM file without the PNG file. -/
theorem success_writes_pgm_without_png :
    (∀ w : World, writesAnyPNG (main w) = false) ∧
    (main fooWorld).status = 0 ∧
    invokesFilter (main fooWorld) = true ∧
    writesAnyPGM (main fooWorld) = true ∧
    writesAnyPNG (main fooWorld) = false :=
  ⟨main_no_png, by decide, by decide, by decide, by decide⟩

/-- Claim C4: when the capability check succeeded and the input path cannot be
opened, `main` exits with a non-zero status, neither output file is written,
the image is not loaded and the filter is not invoked. -/
theorem missing_input_fails (w : World)
    (hdev : Event.printNPPinfo true ∈ (main w).trace)
    (hopen : w.infileGood (sFilename w) = false) :
    (main w).status ≠ 0 ∧ writesAnyPGM (main w) = false ∧ writesAnyPNG (main w) = false ∧
    loadsImage (main w) = false ∧ invokesFilter (main w) = false := by
  obtain ⟨c, hc⟩ := tryCatch_exits w
  rw [main_eq_tryCatch w c hc] at hdev ⊢
  simp only [tryCatch, writesAnyPGM, writesAnyPNG, loadsImage, invokesFilter] at hdev hc ⊢
  repeat' split at hdev
  all_goals simp at hdev
  all_goals simp_all [EXIT_FAILURE]
  all_goals omega

/-- The run on the unreadable `missing.pgm` exits with status 1 and does nothing else. -/
theorem missing_input_fails_witness :
    (main missingWorld).status = 1 ∧
    ((main missingWorld).status ≠ 0 ∧ writesAnyPGM (main missingWorld) = false ∧
      writesAnyPNG (main missingWorld) = false ∧ loadsImage (main missingWorld) = false ∧
      invokesFilter (main missingWorld) = false) :=
  ⟨by decide, missing_input_fails missingWorld (by decide) (by decide)⟩

/-- Claim C5: when the blur primitive returns a status other than
`NPP_SUCCESS`, `main` exits with a non-zero status and writes neither the PGM
nor the PNG file. -/
theorem filter_failure_fails (w : World) (call : FilterCall) (status : Int)
    (h : Event.filter call status ∈ (main w).trace) (hs : status ≠ NPP_SUCCESS) :
    (main w).status ≠ 0 ∧ writesAnyPGM (main w) = false ∧ writesAnyPNG (main w) = false := by
  refine ⟨?_, ?_, main_no_png w⟩
  all_goals
    obtain ⟨c, hc⟩ := tryCatch_exits w
    rw [main_eq_tryCatch w c hc] at h ⊢
    simp only [tryCatch, writesAnyPGM] at h hc ⊢
    repeat' split at h
    all_goals simp at h
    all_goals simp_all [EXIT_FAILURE]
    all_goals omega

/-- The run whose filter call returns -6 exits with a non-zero status and writes nothing. -/
theorem filter_failure_fails_witness :
    invokesFilter (main filterFailWorld) = true ∧
    ((main filterFailWorld).status ≠ 0 ∧ writesAnyPGM (main filterFailWorld) = false ∧
      writesAnyPNG (main filterFailWorld) = false) :=
  ⟨by decide,
    filter_failure_fails filterFailWorld
      ⟨⟨4, 3⟩, ⟨4, 3⟩, ⟨0, 0⟩, ⟨4, 3⟩, ⟨4, 3⟩, NppiMaskSize.NPP_MASK_SIZE_5_X_5,
        NppiBorderType.NPP_BORDER_REPLICATE⟩ (-6) (by decide) (by decide)⟩

/-- Claim C6: when `printNPPinfo` returns false, `main` exits with status 0 and
writes no output file, whatever the flags are and whether or not the input
file can be opened. -/
theorem no_device_exits_zero (w : World)
    (h : Event.printNPPinfo false ∈ (main w).trace) :
    (main w).status = 0 ∧ writesAnyPGM (main w) = false ∧ writesAnyPNG (main w) = false := by
  obtain ⟨c, hc⟩ := tryCatch_exits w
  rw [main_eq_tryCatch w c hc] at h ⊢
  simp only [tryCatch, writesAnyPGM, writesAnyPNG] at h hc ⊢
  repeat' split at h
  all_goals simp at h
  all_goals simp_all [EXIT_SUCCESS]

/-- The run without a capable device exits with status 0 although its input file is missing. -/
theorem no_device_exits_zero_witness :
    noDeviceWorld.infileGood (sFilename noDeviceWorld) = false ∧
    ((main noDeviceWorld).status = 0 ∧ writesAnyPGM (main noDeviceWorld) = false ∧
      writesAnyPNG (main noDeviceWorld) = false) :=
  ⟨by decide, no_device_exits_zero noDeviceWorld (by decide)⟩

/-- Claim C7, at `foo.png`: with no output flag the result is saved under
`foo_gaussianBlur.pgm`, not under `foo_gaussianBlur.png`. -/
theorem default_path_drops_extension :
    sResultFilename pngInputWorld = "foo_gaussianBlur.pgm".toList ∧
    savedPaths (main pngInputWorld) = ["foo_gaussianBlur.pgm".toList] ∧
    sResultFilename pngInputWorld
      ≠ "foo".toList ++ "_gaussianBlur.".toList ++ "png".toList := by
  decide

/-- Claim C7, amended: for an input path `stem.ext` whose extension contains no
`.`, with no output flag, the result is saved under `stem_gaussianBlur.pgm`,
whatever the extension is. -/
theorem default_path_always_pgm (w : World) (stem ext : Str) (hext : '.' ∉ ext)
    (hin : sFilename w = stem ++ ".".toList ++ ext) (hout : w.output = none) :
    sResultFilename w = stem ++ "_gaussianBlur.pgm".toList ∧
    ∀ q ∈ savedPaths (main w), q = stem ++ "_gaussianBlur.pgm".toList := by
  have h : sResultFilename w = stem ++ "_gaussianBlur.pgm".toList := by
    simp only [sResultFilename, hout, hin, List.append_assoc]
    exact defaultResultFilename_append_dot stem ext hext
  exact ⟨h, fun q hq => (mem_savedPaths_main w q hq).trans h⟩

/-- The run on `lena.tiff` saves under `lena_gaussianBlur.pgm`. -/
theorem default_path_always_pgm_witness :
    savedPaths (main tiffInputWorld) = ["lena_gaussianBlur.pgm".toList] ∧
    (sResultFilename tiffInputWorld = "lena".toList ++ "_gaussianBlur.pgm".toList ∧
      ∀ q ∈ savedPaths (main tiffInputWorld),
        q = "lena".toList ++ "_gaussianBlur.pgm".toList) :=
  ⟨by decide,
    default_path_always_pgm tiffInputWorld "lena".toList "tiff".toList (by decide) (by decide)
      (by decide)⟩

/-- Claim C8, at `data.v2/lena`: the result is saved under
`data_gaussianBlur.pgm`, while keeping the directory part and removing only the
extension of the final component gives `data.v2/lena_gaussianBlur.pgm`. -/
theorem strips_at_last_dot_of_whole_path :
    sResultFilename dottedDirWorld = "data_gaussianBlur.pgm".toList ∧
    savedPaths (main dottedDirWorld) = ["data_gaussianBlur.pgm".toList] ∧
    stripFileNameExtension (sFilename dottedDirWorld) ++ "_gaussianBlur.pgm".toList
      = "data.v2/lena_gaussianBlur.pgm".toList ∧
    sResultFilename dottedDirWorld
      ≠ stripFileNameExtension (sFilename dottedDirWorld) ++ "_gaussianBlur.pgm".toList := by
  decide

/-- Claim C8, amended: for an input path whose final component contains a `.`,
or which contains no `.` at all, with no output flag, the result is saved under
the input path with the directory part unchanged and only the extension of the
final component removed, followed by `_gaussianBlur.pgm`. -/
theorem strips_file_name_extension (w : World)
    (h : '.' ∈ fileName (sFilename w) ∨ '.' ∉ sFilename w) (hout : w.output = none) :
    sResultFilename w
      = stripFileNameExtension (sFilename w) ++ "_gaussianBlur.pgm".toList ∧
    ∀ q ∈ savedPaths (main w),
      q = stripFileNameExtension (sFilename w) ++ "_gaussianBlur.pgm".toList := by
  have h1 : sResultFilename w
      = stripFileNameExtension (sFilename w) ++ "_gaussianBlur.pgm".toList := by
    simp only [sResultFilename, hout]
    exact defaultResultFilename_eq_strip _ h
  exact ⟨h1, fun q hq => (mem_savedPaths_main w q hq).trans h1⟩

/-- The run on `data.v2/lena.pgm` saves under `data.v2/lena_gaussianBlur.pgm`. -/
theorem strips_file_name_extension_witness :
    savedPaths (main dottedDirPgmWorld) = ["data.v2/lena_gaussianBlur.pgm".toList] ∧
    (sResultFilename dottedDirPgmWorld
      = stripFileNameExtension (sFilename dottedDirPgmWorld) ++ "_gaussianBlur.pgm".toList ∧
    ∀ q ∈ savedPaths (main dottedDirPgmWorld),
      q = stripFileNameExtension (sFilename dottedDirPgmWorld)
        ++ "_gaussianBlur.pgm".toList) :=
  ⟨by decide, strips_file_name_extension dottedDirPgmWorld (Or.inl (by decide)) (by decide)⟩

/-- Claim C9: when the output flag gives the path `p`, the name the result is
saved under is `p`, whatever the input path is, and `saveImage` is called with
no other name. -/
theorem output_flag_overrides (w : World) (p : Str) (h : w.output = some p) :
    sResultFilename w = p ∧ ∀ q ∈ savedPaths (main w), q = p := by
  have h1 : sResultFilename w = p := by simp only [sResultFilename, h]
  exact ⟨h1, fun q hq => (mem_savedPaths_main w q hq).trans h1⟩

/-- The run with the output flag `out/bar.pgm` saves under `out/bar.pgm`. -/
theorem output_flag_overrides_witness :
    savedPaths (main outputFlagWorld) = ["out/bar.pgm".toList] ∧
    (sResultFilename outputFlagWorld = "out/bar.pgm".toList ∧
      ∀ q ∈ savedPaths (main outputFlagWorld), q = "out/bar.pgm".toList) :=
  ⟨by decide, output_flag_overrides outputFlagWorld "out/bar.pgm".toList (by decide)⟩

/-- Claim C10: for a loaded source image of width `w` and height `h`, on a run
that reaches the save step the image passed to `saveImage` is `w` by `h`, the
device destination and the host destination are allocated `w` by `h`, and the
filter is called exactly once, with source size and destination size `(w, h)`
and source offset `(0, 0)`. -/
theorem dimensions_preserved (w : World) (img dst : ImageCPU) (p : Str)
    (hload : w.loadImage (sFilename w) = some img)
    (hsave : Event.saveImage p dst ∈ (main w).trace) :
    dst.width = img.width ∧ dst.height = img.height ∧
    Event.oDeviceDst img.width img.height ∈ (main w).trace ∧
    Event.oHostDst img.width img.height ∈ (main w).trace ∧
    filterCalls (main w) =
      [⟨⟨img.width, img.height⟩, ⟨(img.width : Int), (img.height : Int)⟩, ⟨0, 0⟩,
        ⟨img.width, img.height⟩, ⟨(img.width : Int), (img.height : Int)⟩,
        NppiMaskSize.NPP_MASK_SIZE_5_X_5, NppiBorderType.NPP_BORDER_REPLICATE⟩] := by
  obtain ⟨c, hc⟩ := tryCatch_exits w
  rw [main_eq_tryCatch w c hc] at hsave ⊢
  simp only [tryCatch, filterCalls] at hsave ⊢
  repeat' split at hsave
  all_goals simp at hsave
  all_goals simp_all
  all_goals
    obtain ⟨hw, hh⟩ := deviceImage_bounds w.deviceAllocSrc img.width img.height (by assumption)
    have e1 := toInt32_small _ hw
    have e2 := toInt32_small _ hh
    have e3 := toUInt32_natCast _ hw
    have e4 := toUInt32_natCast _ hh
    simp [e1, e2, e3, e4]

/-- The run on a 640 by 480 image saves, allocates and filters 640 by 480. -/
theorem dimensions_preserved_witness :
    Event.saveImage "vga_gaussianBlur.pgm".toList ⟨640, 480⟩ ∈ (main vgaWorld).trace ∧
    filterCalls (main vgaWorld) =
      [⟨⟨640, 480⟩, ⟨640, 480⟩, ⟨0, 0⟩, ⟨640, 480⟩, ⟨640, 480⟩,
        NppiMaskSize.NPP_MASK_SIZE_5_X_5, NppiBorderType.NPP_BORDER_REPLICATE⟩] ∧
    Event.oDeviceDst 640 480 ∈ (main vgaWorld).trace ∧
    Event.oHostDst 640 480 ∈ (main vgaWorld).trace :=
  have h := dimensions_preserved vgaWorld ⟨640, 480⟩ ⟨640, 480⟩ "vga_gaussianBlur.pgm".toList
    (by decide) (by decide)
  ⟨by decide, h.2.2.2.2, h.2.2.1, h.2.2.2.1⟩

end GaussianBlur
